import Mathlib

/-!
Shallow embedding of the Ringo content-aggregation backend, covering:

* `backend/routes/content.py` — the license classifier
  (`filter_cc_licensed_content`, `normalize_cc_license`,
  `get_source_default_license`);
* `backend/services/youtube_optimizer.py` — the in-process volatile cache
  (`YouTubeAPIOptimizer`: `get_cache_key`, `is_cache_valid`,
  `get_cached_data`, `set_cache`, `get_etag`, `get_video_details`,
  `clear_expired_cache`);
* `backend/server.py` — the fan-out search aggregation endpoint
  (`search_content_library`, `get_active_sources_v2`).

Python dicts whose values the code only reads/writes by key are modelled
extensionally as partial maps `String → Option α`; wall-clock time
(`datetime.now()`) is an explicit integer parameter (seconds); the MD5
digest applied after canonical serialization is an abstract parameter
`hash : String → String`, since no verified property depends on the
digest function itself.  Python's stable `list.sort` is modelled by the
stable `List.insertionSort`.
-/

namespace Ringo

/-! ## Python string primitives -/

/-- Check that `needle` occurs at the start of `hay` (over characters). -/
def startsWithChars : List Char → List Char → Bool
  | [], _ => true
  | _ :: _, [] => false
  | a :: as, b :: bs => a == b && startsWithChars as bs

/-- Check that `needle` occurs contiguously somewhere in `hay`. -/
def containsChars (needle : List Char) : List Char → Bool
  | [] => startsWithChars needle []
  | b :: bs => startsWithChars needle (b :: bs) || containsChars needle bs

/-- Python's `str.lower` on one character (ASCII case mapping). -/
def pyLowerChar (c : Char) : Char :=
  if 'A' ≤ c && c ≤ 'Z' then Char.ofNat (c.toNat + 32) else c

/-- Python's `str.lower`. -/
def pyLower (s : String) : String := ⟨s.data.map pyLowerChar⟩

/-- Python's default `str.strip` whitespace test. -/
def pyIsSpace (c : Char) : Bool :=
  c == ' ' || c == '\t' || c == '\n' || c == '\r' || c == '\x0b' || c == '\x0c'

/-- Python's `str.strip` (remove leading and trailing whitespace). -/
def pyStrip (s : String) : String :=
  ⟨((s.data.dropWhile pyIsSpace).reverse.dropWhile pyIsSpace).reverse⟩

/-- Python's substring test `needle in hay`. -/
def pyIn (needle hay : String) : Bool :=
  containsChars needle.data hay.data

/-! ## `backend/routes/content.py` — license helper functions -/

/-- The `ALLOWED_CC_LICENSES` constant (content.py lines 73-79). -/
def ALLOWED_CC_LICENSES : List String :=
  ["cc by", "cc-by", "cc by 4.0", "cc by 3.0", "creative commons",
   "cc by-sa", "cc-by-sa", "cc by sa",
   "cc by-nd", "cc-by-nd", "cc by nd",
   "cc0", "public domain", "pd", "no known copyright",
   "open access", "open-access"]

/-- The `ALWAYS_CC_SOURCES` constant (content.py lines 81-87). -/
def ALWAYS_CC_SOURCES : List String :=
  ["openstax", "wikiversity", "wikibooks", "wikimedia", "wikipedia",
   "oer commons", "internet archive", "library of congress",
   "youtube (cc)", "ted", "arxiv", "pubmed", "doaj",
   "ck-12", "freecodecamp", "mit opencourseware", "project gutenberg",
   "storyweaver", "open library"]

/-- The `defaults` table inside `get_source_default_license`
(content.py lines 130-141); a Python dict iterated in insertion order. -/
def DEFAULT_LICENSES : List (String × String) :=
  [("openstax", "CC BY 4.0"),
   ("wikipedia", "CC BY-SA 3.0"),
   ("wikiversity", "CC BY-SA 3.0"),
   ("wikibooks", "CC BY-SA 3.0"),
   ("project gutenberg", "Public Domain"),
   ("internet archive", "Public Domain"),
   ("storyweaver", "CC BY 4.0"),
   ("open library", "Public Domain"),
   ("arxiv", "Open Access"),
   ("ted", "CC BY-NC-ND 4.0")]

/-- The `for key, license_val in defaults.items(): if key in source_lower`
loop of `get_source_default_license`. -/
def lookupDefault : List (String × String) → String → Option String
  | [], _ => none
  | (key, license_val) :: rest, source_lower =>
    if pyIn key source_lower then some license_val
    else lookupDefault rest source_lower

/-- `get_source_default_license` (content.py lines 126-147): returns the
first matching per-source default, and the literal `"CC BY"` when no key
of the defaults table is a substring of the lower-cased source. -/
def get_source_default_license (source : String) : String :=
  match lookupDefault DEFAULT_LICENSES (pyLower source) with
  | some license_val => license_val
  | none => "CC BY"

/-- `normalize_cc_license` (content.py lines 108-123).  The final Python
line `return get_source_default_license(source) or license_str` is the
truthiness choice: the default when it is a nonempty string, otherwise
the raw license string. -/
def normalize_cc_license (license_str : String) (source : String) : String :=
  let license_lower := pyStrip (pyLower license_str)
  if (["public domain", "pd", "cc0"].any fun pd => pyIn pd license_lower) then
    "Public Domain (CC0)"
  else if pyIn "by-sa" license_lower || pyIn "share alike" license_lower then
    "CC BY-SA 4.0"
  else if pyIn "by-nd" license_lower then
    "CC BY-ND 4.0"
  else if (["cc by", "creative commons", "attribution"].any fun cc => pyIn cc license_lower) then
    "CC BY 4.0"
  else if pyIn "open access" license_lower then
    "Open Access (CC BY)"
  else
    let d := get_source_default_license source
    if d ≠ "" then d else license_str

/-- Whether any of the ordered substring rules of `normalize_cc_license`
fires on the lower-cased, trimmed license string. -/
def licenseRuleMatches (license_str : String) : Bool :=
  let license_lower := pyStrip (pyLower license_str)
  (["public domain", "pd", "cc0"].any fun pd => pyIn pd license_lower)
  || pyIn "by-sa" license_lower || pyIn "share alike" license_lower
  || pyIn "by-nd" license_lower
  || (["cc by", "creative commons", "attribution"].any fun cc => pyIn cc license_lower)
  || pyIn "open access" license_lower

/-- One search-result dict as consumed by `filter_cc_licensed_content`:
the filter reads the `license` and `source` keys, rewrites `license`
and adds `cc_verified`; `title` stands for the untouched payload keys. -/
structure CItem where
  title : String := ""
  license : String := ""
  source : String := ""
  cc_verified : Bool := false
  deriving DecidableEq, Repr

/-- The inclusion test of `filter_cc_licensed_content` (content.py lines
94-100): the spec's `isUsable(rawLicense, sourceName)` verdict. -/
def isUsable (license source : String) : Bool :=
  let license_str := pyStrip (pyLower license)
  let source_str := pyStrip (pyLower source)
  (ALWAYS_CC_SOURCES.any fun s => pyIn s source_str)
  || (ALLOWED_CC_LICENSES.any fun l => pyIn l license_str)

/-- The rewrite applied to an accepted item inside
`filter_cc_licensed_content`: normalize the license (passing the
lower-cased stripped source) and set `cc_verified`. -/
def ccRelabel (r : CItem) : CItem :=
  { r with license := normalize_cc_license r.license (pyStrip (pyLower r.source)),
           cc_verified := true }

/-- `filter_cc_licensed_content` (content.py lines 90-105). -/
def filter_cc_licensed_content : List CItem → List CItem
  | [] => []
  | r :: rs =>
    let license_str := pyStrip (pyLower r.license)
    let source_str := pyStrip (pyLower r.source)
    let is_cc_source := ALWAYS_CC_SOURCES.any fun s => pyIn s source_str
    let is_cc_license := ALLOWED_CC_LICENSES.any fun l => pyIn l license_str
    if is_cc_source || is_cc_license then
      { r with license := normalize_cc_license r.license source_str,
               cc_verified := true } :: filter_cc_licensed_content rs
    else
      filter_cc_licensed_content rs

/-! ## `backend/services/youtube_optimizer.py` — `YouTubeAPIOptimizer`

The class-level dicts `_data_cache`, `_etag_cache`, `_cache_timestamps`
are modelled extensionally as partial maps in a `CacheState`; the cached
payload type is a parameter `V`.  `datetime.now()` is an explicit `now`
argument in seconds.  `get_cache_key` applies `hashlib.md5(...).hexdigest()`
to the canonically serialized params; the digest is the abstract
parameter `hash`. -/

/-- JSON parameter values appearing in the optimizer's cache-key params
(`{"q": query, "max": max_results}`, `{"ids": ","...}`). -/
inductive JVal where
  | str (s : String)
  | num (n : Int)
  deriving DecidableEq, Repr

/-- `json.dumps` escaping for one character of a string literal. -/
def jsonEscapeChar (c : Char) : String :=
  if c = '"' then "\\\"" else if c = '\\' then "\\\\" else String.singleton c

/-- `json.dumps` rendering of a string literal. -/
def jsonStringLit (s : String) : String :=
  "\"" ++ String.join (s.data.map jsonEscapeChar) ++ "\""

/-- `json.dumps` rendering of one parameter value. -/
def jsonVal : JVal → String
  | .str s => jsonStringLit s
  | .num n => toString n

/-- Ordering of serialized dict entries by key (`sort_keys=True`). -/
def paramLe (a b : String × JVal) : Prop := a.1 ≤ b.1

instance : DecidableRel paramLe := fun a b => inferInstanceAs (Decidable (a.1 ≤ b.1))

instance : IsTotal (String × JVal) paramLe := ⟨fun a b => le_total a.1 b.1⟩

instance : IsTrans (String × JVal) paramLe := ⟨fun _ _ _ h1 h2 => le_trans h1 h2⟩

/-- `json.dumps(params, sort_keys=True)`: the params dict (an
insertion-ordered association list with distinct keys) serialized with
its entries sorted by key. -/
def json_dumps_sorted (params : List (String × JVal)) : String :=
  "\x7b" ++ String.intercalate ", "
      ((List.insertionSort paramLe params).map fun p =>
        jsonStringLit p.1 ++ ": " ++ jsonVal p.2)
    ++ "\x7d"

/-- `YouTubeAPIOptimizer.get_cache_key` (youtube_optimizer.py lines
35-38): digest of `f"{operation}:{param_str}"`. -/
def get_cache_key (hash : String → String) (operation : String)
    (params : List (String × JVal)) : String :=
  hash (operation ++ ":" ++ json_dumps_sorted params)

/-- The three class-level cache dicts of `YouTubeAPIOptimizer`. -/
structure CacheState (V : Type) where
  data_cache : String → Option V
  etag_cache : String → Option String
  cache_timestamps : String → Option Int

/-- The initial (empty) class-level dicts. -/
def initState {V : Type} : CacheState V :=
  ⟨fun _ => none, fun _ => none, fun _ => none⟩

/-- `YouTubeAPIOptimizer.CACHE_TTL_MINUTES`. -/
def CACHE_TTL_MINUTES : Int := 30

/-- `YouTubeAPIOptimizer.is_cache_valid` (lines 40-45). -/
def is_cache_valid {V : Type} (now : Int) (st : CacheState V)
    (cache_key : String) : Bool :=
  match st.cache_timestamps cache_key with
  | none => false
  | some t0 => decide (now - t0 < CACHE_TTL_MINUTES * 60)

/-- `YouTubeAPIOptimizer.get_cached_data` (lines 47-52). -/
def get_cached_data {V : Type} (now : Int) (st : CacheState V)
    (cache_key : String) : Option V :=
  if is_cache_valid now st cache_key && (st.data_cache cache_key).isSome then
    st.data_cache cache_key
  else none

/-- `YouTubeAPIOptimizer.set_cache` (lines 54-60); the ETag is stored
only when truthy (`if etag:`), i.e. present and nonempty. -/
def set_cache {V : Type} (now : Int) (st : CacheState V) (cache_key : String)
    (data : V) (etag : Option String) : CacheState V :=
  { data_cache := fun k => if k = cache_key then some data else st.data_cache k
    cache_timestamps := fun k => if k = cache_key then some now else st.cache_timestamps k
    etag_cache :=
      if (etag.getD "") ≠ "" then
        fun k => if k = cache_key then etag else st.etag_cache k
      else st.etag_cache }

/-- `YouTubeAPIOptimizer.get_etag` (lines 62-64). -/
def get_etag {V : Type} (st : CacheState V) (cache_key : String) : Option String :=
  st.etag_cache cache_key

/-- The membership test of the `expired_keys` comprehension in
`clear_expired_cache` (lines 171-174). -/
def entryExpired {V : Type} (now : Int) (st : CacheState V) (key : String) : Bool :=
  match st.cache_timestamps key with
  | some timestamp => decide (now - timestamp > CACHE_TTL_MINUTES * 60)
  | none => false

/-- `YouTubeAPIOptimizer.clear_expired_cache` (lines 168-180): pop every
expired key from all three dicts. -/
def clear_expired_cache {V : Type} (now : Int) (st : CacheState V) : CacheState V :=
  { data_cache := fun k => if entryExpired now st k then none else st.data_cache k
    etag_cache := fun k => if entryExpired now st k then none else st.etag_cache k
    cache_timestamps := fun k => if entryExpired now st k then none else st.cache_timestamps k }

/-- A `videos().list` response body: its `items` list and optional
`etag` field (`response.get("etag")`).  The video item type is abstract. -/
structure YResponse (Item : Type) where
  items : List Item
  etag : Option String

/-- Ordering used by Python's `sorted` on strings. -/
def strLe (a b : String) : Prop := a ≤ b

instance : DecidableRel strLe := fun a b => inferInstanceAs (Decidable (a ≤ b))

/-- Python's `sorted(video_ids)` (a stable sort). -/
def pySorted (l : List String) : List String := List.insertionSort strLe l

/-- The chunking loop `for i in range(0, len(video_ids), 50):
batch_ids = video_ids[i:i+50]` (youtube_optimizer.py line 132-133). -/
def pyChunks50 (l : List String) : List (List String) :=
  if h : l = [] then [] else l.take 50 :: pyChunks50 (l.drop 50)
termination_by l.length
decreasing_by
  simp only [List.length_drop]
  have : 0 < l.length := List.length_pos.mpr h
  omega

/-- The per-batch body of `get_video_details` (lines 132-162), iterated
over the chunk list and threading the class-level cache state.  `fetch`
models `youtube.videos().list(...).execute()` given the batch IDs and
the optional `If-None-Match` header; `Except.error status` models an
`HttpError` with that response status.  A 304 reuses the cached batch
when present; any other error propagates.  The returned triple is the
accumulated `all_items`, the final cache state, and the list of issued
provider batch requests in order. -/
def fetchLoop {Item : Type} (hash : String → String)
    (fetch : List String → Option String → Except Nat (YResponse Item))
    (now : Int) :
    CacheState (YResponse Item) → List (List String) →
      Except Nat (List Item × CacheState (YResponse Item) × List (List String))
  | st, [] => .ok ([], st, [])
  | st, batch_ids :: rest =>
    let batch_cache_key :=
      get_cache_key hash "videos_batch" [("ids", .str (String.intercalate "," batch_ids))]
    let etag := get_etag st batch_cache_key
    match fetch batch_ids etag with
    | .ok response =>
      let st1 := set_cache now st batch_cache_key response response.etag
      match fetchLoop hash fetch now st1 rest with
      | .ok (items, st2, calls) => .ok (response.items ++ items, st2, batch_ids :: calls)
      | .error e => .error e
    | .error status =>
      if status = 304 then
        match get_cached_data now st batch_cache_key with
        | some cached_batch =>
          match fetchLoop hash fetch now st rest with
          | .ok (items, st2, calls) => .ok (cached_batch.items ++ items, st2, batch_ids :: calls)
          | .error e => .error e
        | none =>
          match fetchLoop hash fetch now st rest with
          | .ok (items, st2, calls) => .ok (items, st2, batch_ids :: calls)
          | .error e => .error e
      else .error status

/-- `YouTubeAPIOptimizer.get_video_details` (lines 114-166).  Returns
the response dict `{"items": all_items}`, the final cache state, and
the list of issued provider batch requests. -/
def get_video_details {Item : Type} (hash : String → String)
    (fetch : List String → Option String → Except Nat (YResponse Item))
    (now : Int) (st : CacheState (YResponse Item)) (video_ids : List String) :
    Except Nat (YResponse Item × CacheState (YResponse Item) × List (List String)) :=
  if video_ids = [] then .ok (⟨[], none⟩, st, [])
  else
    let cache_key := get_cache_key hash "videos"
      [("ids", .str (String.intercalate "," (pySorted video_ids)))]
    match get_cached_data now st cache_key with
    | some cached => .ok (cached, st, [])
    | none =>
      match fetchLoop hash fetch now st (pyChunks50 video_ids) with
      | .error e => .error e
      | .ok (all_items, st1, calls) =>
        let result : YResponse Item := ⟨all_items, none⟩
        .ok (result, set_cache now st1 cache_key result none, calls)

/-- One state-mutating operation on the class-level caches: a
`set_cache` call or a `clear_expired_cache` call, each at some wall
clock time. -/
inductive CacheOp (V : Type) where
  | setEntry (now : Int) (cache_key : String) (data : V) (etag : Option String)
  | sweep (now : Int)

/-- Apply one cache operation. -/
def applyCacheOp {V : Type} (st : CacheState V) : CacheOp V → CacheState V
  | .setEntry now cache_key data etag => set_cache now st cache_key data etag
  | .sweep now => clear_expired_cache now st

/-- Run a sequence of cache operations from the empty class-level dicts. -/
def runCacheOps {V : Type} (ops : List (CacheOp V)) : CacheState V :=
  ops.foldl applyCacheOp initState

/-- The map-consistency invariant: every ETag key is a data key, and the
data dict and the timestamp dict hold exactly the same keys. -/
def cacheMapsConsistent {V : Type} (st : CacheState V) : Prop :=
  ∀ k, ((st.etag_cache k).isSome = true → (st.data_cache k).isSome = true)
    ∧ ((st.data_cache k).isSome = true ↔ (st.cache_timestamps k).isSome = true)

/-! ## `backend/server.py` — `search_content_library`

The adapters (`search_openalex_articles`, …) are external HTTP calls;
one aggregation call is modelled as a function of the already-gathered
per-task outcomes: `asyncio.gather(*tasks, return_exceptions=True)`
yields, in task-dispatch order, either an adapter's result list
(`Except.ok`) or its exception (`Except.error`). -/

/-- One search-result dict as consumed by the aggregation pipeline: the
keys the endpoint reads (`url`, `title`, `description`, `thumbnail`,
`type`, `category`); a missing/None value is the empty string. -/
structure SItem where
  url : String := ""
  title : String := ""
  description : String := ""
  thumbnail : String := ""
  rtype : String := ""
  category : String := ""
  deriving DecidableEq, Repr

/-- The gather loop (server.py lines 2365-2369): extend `all_results`
with each task result that is a list, skip (log) each exception. -/
def gatherResults : List (Except String (List SItem)) → List SItem
  | [] => []
  | .ok l :: rest => l ++ gatherResults rest
  | .error _ :: rest => gatherResults rest

/-- The category filter (lines 2372-2373). -/
def categoryFiltered (category : String) (l : List SItem) : List SItem :=
  if category ≠ "all" then
    l.filter fun r => r.rtype == category || r.category == category
  else l

/-- The dedup key `key = url or title` (line 2381): the url when
nonempty (truthy), else the title. -/
def dedupKey (r : SItem) : String := if r.url ≠ "" then r.url else r.title

/-- The dedup loop (lines 2375-2385): keep an item iff its key is
nonempty and not seen yet, in input order; `seen` is the `seen_urls`
set. -/
def dedupResults (seen : List String) : List SItem → List SItem
  | [] => []
  | r :: rs =>
    let key := dedupKey r
    if key ≠ "" && !(seen.contains key) then r :: dedupResults (key :: seen) rs
    else dedupResults seen rs

/-- The sort key of line 2388-2391 as a single rank: the tuple
`(1 if description else 0, 1 if thumbnail and thumbnail != "📄" else 0)`
compared lexicographically equals this number compared numerically. -/
def relevanceRank (r : SItem) : Nat :=
  2 * (if r.description ≠ "" then 1 else 0)
    + (if r.thumbnail ≠ "" && r.thumbnail ≠ "📄" then 1 else 0)

/-- `list.sort(key=..., reverse=True)` orders by descending rank,
keeping the original order of ties (Python's sort is stable). -/
def rankLe (a b : SItem) : Prop := relevanceRank b ≤ relevanceRank a

instance : DecidableRel rankLe := fun a b =>
  inferInstanceAs (Decidable (relevanceRank b ≤ relevanceRank a))

/-- The ranked (sorted) full result list of one aggregation call, before
pagination: gather, category-filter, dedup, stable-sort. -/
def rankedResults (tasks : List (Except String (List SItem))) (category : String) : List SItem :=
  List.insertionSort rankLe (dedupResults [] (categoryFiltered category (gatherResults tasks)))

/-- The `"all"` entry of the sources dict in `get_active_sources_v2`
(server.py lines 2421-2430), also the `.get` fallback. -/
def SOURCES_ALL : List String :=
  ["OpenStax (CC BY)", "CK-12 (CC BY-NC)", "MIT OCW (CC BY-NC-SA)",
   "Wikiversity (CC BY-SA)", "Wikibooks (CC BY-SA)", "YouTube (CC BY)",
   "Internet Archive (Public Domain)", "OER Commons (CC BY/SA)",
   "Wikimedia Commons (CC BY-SA)", "Library of Congress (Public Domain)"]

/-- `get_active_sources_v2` (server.py lines 2419-2430): a fixed
per-category list of source labels, independent of which adapters
succeeded. -/
def get_active_sources_v2 (category : String) : List String :=
  if category = "all" then SOURCES_ALL
  else if category = "article" then
    ["OpenAlex", "arXiv (Open Access)", "PubMed Central",
     "Wikipedia (CC BY-SA)", "DOAJ (Open Access)"]
  else if category = "course" then
    ["OpenStax (CC BY 4.0)", "CK-12 FlexBooks (CC BY-NC)",
     "MIT OpenCourseWare (CC BY-NC-SA)", "Wikiversity (CC BY-SA)",
     "Wikibooks (CC BY-SA)", "freeCodeCamp (Free)", "YouTube (CC BY)"]
  else if category = "video" then
    ["YouTube Creative Commons (CC BY)", "Internet Archive (Public Domain)",
     "TED Talks (CC BY-NC-ND)"]
  else if category = "resource" then
    ["OER Commons (CC BY/CC BY-SA)", "Wikimedia Commons (CC BY-SA)", "MERLOT",
     "Internet Archive (Public Domain)", "Smithsonian (Open Access)",
     "Library of Congress (Public Domain)", "PBS LearningMedia"]
  else if category = "worksheet" then
    ["OER Commons (CC BY/SA)", "Internet Archive", "PBS LearningMedia"]
  else if category = "book" then
    ["OpenLibrary", "Internet Archive (Public Domain)"]
  else SOURCES_ALL

/-- The JSON page returned by `search_content_library`
(server.py lines 2400-2412); `query` and `grade` echo inputs and are
omitted. -/
structure SearchResponse where
  results : List SItem
  total : Nat
  page : Nat
  per_page : Nat
  total_pages : Nat
  has_next : Bool
  has_prev : Bool
  sources : List String
  deriving DecidableEq, Repr

/-- `search_content_library` (server.py lines 2300-2412) as a function
of the gathered adapter-task outcomes and the query parameters
(FastAPI validates `page ≥ 1`, `per_page ≤ 100`). -/
def search_content_library (tasks : List (Except String (List SItem)))
    (category : String) (page per_page : Nat) : SearchResponse :=
  let all_results := rankedResults tasks category
  let total_results := all_results.length
  let total_pages := max 1 ((total_results + per_page - 1) / per_page)
  let start_idx := (page - 1) * per_page
  { results := (all_results.drop start_idx).take per_page
    total := total_results
    page := page
    per_page := per_page
    total_pages := total_pages
    has_next := decide (page < total_pages)
    has_prev := decide (1 < page)
    sources := get_active_sources_v2 category }

/-- The `isinstance(result, list)` test of the gather loop: whether a
task outcome is an adapter result list rather than an exception. -/
def isListResult : Except String (List SItem) → Bool
  | .ok _ => true
  | .error _ => false

/-! ## Theorems -/

/-- A value the defaults-table loop returns is one of the table's values. -/
theorem lookupDefault_mem :
    ∀ (l : List (String × String)) (s v : String),
      lookupDefault l s = some v → v ∈ l.map Prod.snd
  | [], _, _, h => by simp [lookupDefault] at h
  | (key, license_val) :: rest, s, v, h => by
    simp only [lookupDefault] at h
    by_cases hk : pyIn key s
    · simp [hk] at h
      simp [h]
    · simp [hk] at h
      simpa using Or.inr (lookupDefault_mem rest s v h)

/-- `get_source_default_license` never returns the empty string: every
value of the defaults table is nonempty and the final fallback is the
literal `"CC BY"`. -/
theorem get_source_default_license_ne_empty (source : String) :
    get_source_default_license source ≠ "" := by
  unfold get_source_default_license
  cases h : lookupDefault DEFAULT_LICENSES (pyLower source) with
  | none => simp
  | some v =>
    have hv := lookupDefault_mem _ _ _ h
    simp only [DEFAULT_LICENSES, List.map, List.mem_cons, List.not_mem_nil, or_false] at hv
    rcases hv with rfl | rfl | rfl | rfl | rfl | rfl | rfl | rfl | rfl | rfl <;> simp

/-- The accept/rewrite loop of `filter_cc_licensed_content` is exactly:
keep the items whose `(license, source)` passes `isUsable`, relabelled. -/
theorem filter_cc_eq (rs : List CItem) :
    filter_cc_licensed_content rs
      = (rs.filter fun r => isUsable r.license r.source).map ccRelabel := by
  induction rs with
  | nil => rfl
  | cons r rs ih =>
    by_cases h : isUsable r.license r.source
    · have h' : ((ALWAYS_CC_SOURCES.any fun s => pyIn s (pyStrip (pyLower r.source)))
            || (ALLOWED_CC_LICENSES.any fun l => pyIn l (pyStrip (pyLower r.license)))) = true := h
      show (if ((ALWAYS_CC_SOURCES.any fun s => pyIn s (pyStrip (pyLower r.source)))
            || (ALLOWED_CC_LICENSES.any fun l => pyIn l (pyStrip (pyLower r.license)))) then
            ccRelabel r :: filter_cc_licensed_content rs
          else filter_cc_licensed_content rs) = _
      rw [List.filter_cons, if_pos h', if_pos h]
      simp [ih]
    · have h' : ¬ ((ALWAYS_CC_SOURCES.any fun s => pyIn s (pyStrip (pyLower r.source)))
            || (ALLOWED_CC_LICENSES.any fun l => pyIn l (pyStrip (pyLower r.license)))) = true := h
      show (if ((ALWAYS_CC_SOURCES.any fun s => pyIn s (pyStrip (pyLower r.source)))
            || (ALLOWED_CC_LICENSES.any fun l => pyIn l (pyStrip (pyLower r.license)))) then
            ccRelabel r :: filter_cc_licensed_content rs
          else filter_cc_licensed_content rs) = _
      rw [List.filter_cons, if_neg h', if_neg h]
      exact ih

/-- C5.  License filter decision: `isUsable("CC BY 4.0", "anysource")` is
true, `isUsable("All Rights Reserved", "unknownsource")` is false,
`isUsable("", "openstax")` is true; and `filter_cc_licensed_content`
keeps exactly the items passing `isUsable` (so an item with an
unrecognized license string and a source off the allow-list is always
excluded — default-deny). -/
theorem license_filter_decision :
    (∀ rs : List CItem, filter_cc_licensed_content rs
        = (rs.filter fun r => isUsable r.license r.source).map ccRelabel)
    ∧ isUsable "CC BY 4.0" "anysource" = true
    ∧ isUsable "All Rights Reserved" "unknownsource" = false
    ∧ isUsable "" "openstax" = true :=
  ⟨filter_cc_eq, by decide, by decide, by decide⟩

/-- C4 counterexample.  `"All Rights Reserved"` matches no substring rule
of `normalize_cc_license`, and `"unknownsource"` is on no allow-list
(neither `ALWAYS_CC_SOURCES` nor the per-source defaults table), yet
`normalize_cc_license` returns the canonical tag `"CC BY"` — not the
original license string unchanged, as the claim requires. -/
theorem normalize_fallback_counterexample :
    licenseRuleMatches "All Rights Reserved" = false
    ∧ (ALWAYS_CC_SOURCES.any fun s => pyIn s "unknownsource") = false
    ∧ lookupDefault DEFAULT_LICENSES (pyLower "unknownsource") = none
    ∧ normalize_cc_license "All Rights Reserved" "unknownsource" = "CC BY"
    ∧ normalize_cc_license "All Rights Reserved" "unknownsource" ≠ "All Rights Reserved" := by
  refine ⟨by decide, by decide, by decide, by decide, by decide⟩

/-- C4 amended.  For every license string none of whose lower-cased,
trimmed form matches a substring rule, `normalize_cc_license` returns
`get_source_default_license source`: the per-source default tag when a
defaults-table key is a substring of the source, and the global fallback
`"CC BY"` otherwise.  It never returns the original license string,
because `get_source_default_license` never yields the empty string. -/
theorem normalize_unmatched_license_fallback (license_str source : String)
    (h : licenseRuleMatches license_str = false) :
    normalize_cc_license license_str source = get_source_default_license source
    ∧ get_source_default_license source ≠ "" := by
  refine ⟨?_, get_source_default_license_ne_empty source⟩
  simp only [licenseRuleMatches, Bool.or_eq_false_iff] at h
  obtain ⟨⟨⟨⟨⟨hA, hB⟩, hC⟩, hD⟩, hE⟩, hF⟩ := h
  have hne := get_source_default_license_ne_empty source
  simp only [normalize_cc_license]
  simp [hA, hB, hC, hD, hE, hF, hne]

/-- Witness for `normalize_unmatched_license_fallback` at a concrete
unmatched license and an allow-listed source. -/
theorem normalize_unmatched_license_fallback_witness :
    licenseRuleMatches "Some Unknown Terms" = false
    ∧ (normalize_cc_license "Some Unknown Terms" "wikipedia"
          = get_source_default_license "wikipedia"
        ∧ get_source_default_license "wikipedia" ≠ "") :=
  ⟨by decide, normalize_unmatched_license_fallback "Some Unknown Terms" "wikipedia" (by decide)⟩

/-- Claim C6.  Volatile-cache TTL correctness: an entry stored by
`set_cache` at time `t0` is returned by `get_cached_data` at every time
`t < t0 + TTL` and treated as a miss (`none`) at every `t ≥ t0 + TTL`,
with TTL the configured `CACHE_TTL_MINUTES * 60` seconds (30 minutes). -/
theorem cache_ttl_correctness {V : Type} (st : CacheState V) (cache_key : String)
    (data : V) (etag : Option String) (t0 t : Int) :
    (t < t0 + CACHE_TTL_MINUTES * 60 →
      get_cached_data t (set_cache t0 st cache_key data etag) cache_key = some data)
    ∧ (t0 + CACHE_TTL_MINUTES * 60 ≤ t →
      get_cached_data t (set_cache t0 st cache_key data etag) cache_key = none) := by
  constructor <;> intro h
  · simp [get_cached_data, is_cache_valid, set_cache,
      show t - t0 < CACHE_TTL_MINUTES * 60 by omega]
  · simp [get_cached_data, is_cache_valid, set_cache,
      show ¬ (t - t0 < CACHE_TTL_MINUTES * 60) by omega]

/-- Witness for `cache_ttl_correctness`: a concrete entry stored at time
0 is a hit at 100 s and a miss at 1800 s. -/
theorem cache_ttl_correctness_witness :
    get_cached_data 100 (set_cache 0 (initState (V := Nat)) "k" 7 none) "k" = some 7
    ∧ get_cached_data 1800 (set_cache 0 (initState (V := Nat)) "k" 7 none) "k" = none :=
  ⟨(cache_ttl_correctness initState "k" 7 none 0 100).1 (by decide),
   (cache_ttl_correctness initState "k" 7 none 0 1800).2 (by decide)⟩

/-- `set_cache` preserves the map-consistency invariant. -/
theorem consistent_set {V : Type} (st : CacheState V) (now : Int) (ck : String)
    (data : V) (etag : Option String) (h : cacheMapsConsistent st) :
    cacheMapsConsistent (set_cache now st ck data etag) := by
  intro k
  by_cases hk : k = ck
  · subst hk
    constructor
    · intro _
      simp [set_cache]
    · constructor <;> intro _ <;> simp [set_cache]
  · have hold := h k
    constructor
    · intro he
      have : (st.etag_cache k).isSome = true := by
        by_cases hc : (etag.getD "") ≠ ""
        · simpa [set_cache, hc, hk] using he
        · simpa [set_cache, hc, hk] using he
      simpa [set_cache, hk] using hold.1 this
    · simpa [set_cache, hk] using hold.2

/-- `clear_expired_cache` preserves the map-consistency invariant: the
same expired key set is removed from all three dicts. -/
theorem consistent_clear {V : Type} (st : CacheState V) (now : Int)
    (h : cacheMapsConsistent st) :
    cacheMapsConsistent (clear_expired_cache now st) := by
  intro k
  by_cases he : entryExpired now st k
  · constructor
    · intro hx
      simp [clear_expired_cache, he] at hx
    · constructor <;> intro hx <;> simp [clear_expired_cache, he] at hx
  · have hold := h k
    constructor
    · intro hx
      have := hold.1 (by simpa [clear_expired_cache, he] using hx)
      simpa [clear_expired_cache, he] using this
    · simpa [clear_expired_cache, he] using hold.2

/-- Any sequence of cache operations preserves map consistency. -/
theorem consistent_run {V : Type} :
    ∀ (ops : List (CacheOp V)) (st : CacheState V), cacheMapsConsistent st →
      cacheMapsConsistent (ops.foldl applyCacheOp st)
  | [], _, h => h
  | op :: ops, st, h => by
    apply consistent_run ops
    cases op with
    | setEntry now ck data etag => exact consistent_set st now ck data etag h
    | sweep now => exact consistent_clear st now h

/-- Claim C9.  Volatile-cache map consistency: starting from the empty
class-level dicts, after any sequence of `set_cache` and
`clear_expired_cache` operations, every ETag key is a data key, and the
data dict and the timestamp dict hold exactly the same keys. -/
theorem cache_maps_consistency (V : Type) (ops : List (CacheOp V)) (k : String) :
    (((runCacheOps ops).etag_cache k).isSome = true →
        ((runCacheOps ops).data_cache k).isSome = true)
    ∧ (((runCacheOps ops).data_cache k).isSome = true ↔
        ((runCacheOps ops).cache_timestamps k).isSome = true) := by
  have : cacheMapsConsistent (runCacheOps ops) := by
    apply consistent_run
    intro k
    simp [initState]
  exact this k

/-- Witness for `cache_maps_consistency`: after one `set_cache` with an
ETag and one sweep, the key stored in the ETag dict is in the data dict. -/
theorem cache_maps_consistency_witness :
    ((runCacheOps [CacheOp.setEntry 0 "a" (37 : Nat) (some "e"),
        CacheOp.sweep 10]).data_cache "a").isSome = true :=
  (cache_maps_consistency Nat
      [CacheOp.setEntry 0 "a" (37 : Nat) (some "e"), CacheOp.sweep 10] "a").1
    (by decide)

/-- Claim C10.  Empty-input short-circuit: for the empty ID list,
`get_video_details` returns `{"items": []}` immediately, issues no
provider fetch, and leaves the cache state unchanged. -/
theorem empty_ids_short_circuit {Item : Type} (hash : String → String)
    (fetch : List String → Option String → Except Nat (YResponse Item))
    (now : Int) (st : CacheState (YResponse Item)) :
    get_video_details hash fetch now st [] = .ok (⟨[], none⟩, st, []) := rfl

/-- When every provider fetch succeeds, the batch loop returns the
per-chunk items concatenated in chunk order and issues exactly the
chunk list as its batch requests. -/
theorem fetchLoop_all_ok {Item : Type} (hash : String → String)
    (f : List String → YResponse Item) (now : Int) :
    ∀ (chunks : List (List String)) (st : CacheState (YResponse Item)),
      ∃ stf, fetchLoop hash (fun b _ => .ok (f b)) now st chunks
        = .ok ((chunks.map fun c => (f c).items).flatten, stf, chunks)
  | [], st => ⟨st, rfl⟩
  | c :: cs, st => by
    obtain ⟨stf, hrec⟩ := fetchLoop_all_ok hash f now cs
      (set_cache now st
        (get_cache_key hash "videos_batch" [("ids", .str (String.intercalate "," c))])
        (f c) (f c).etag)
    refine ⟨stf, ?_⟩
    simp only [fetchLoop, hrec, List.map_cons, List.flatten_cons]

/-- Unfolding of the chunking loop on a nonempty list. -/
theorem pyChunks50_cons (l : List String) (h : l ≠ []) :
    pyChunks50 l = l.take 50 :: pyChunks50 (l.drop 50) := by
  rw [pyChunks50]
  simp [h]

/-- A 120-element list is chunked into exactly three slices. -/
theorem pyChunks50_of_length_120 (l : List String) (h : l.length = 120) :
    pyChunks50 l = [l.take 50, (l.drop 50).take 50, l.drop 100] := by
  have h1 : l ≠ [] := by intro hh; rw [hh] at h; simp at h
  have h2 : l.drop 50 ≠ [] := by
    intro hh
    have := congrArg List.length hh
    simp [List.length_drop, h] at this
  have hdd : (l.drop 50).drop 50 = l.drop 100 := by
    rw [List.drop_drop]
  have h3 : (l.drop 50).drop 50 ≠ [] := by
    rw [hdd]
    intro hh
    have := congrArg List.length hh
    simp [List.length_drop, h] at this
  have h4 : ((l.drop 50).drop 50).drop 50 = [] := by
    apply List.eq_nil_of_length_eq_zero
    simp [List.length_drop, h]
  rw [pyChunks50_cons l h1, pyChunks50_cons _ h2, pyChunks50_cons _ h3, h4]
  rw [pyChunks50]
  simp [hdd]
  omega

/-- Claim C8.  Batch boundary: on 120 uncached IDs with batch size 50,
`get_video_details` issues exactly three batch fetches of sizes
`[50, 50, 20]`, whose requests concatenate back to the input ID list in
order, and the returned items are the per-batch results concatenated in
chunk (= input) order. -/
theorem batch_boundary {Item : Type} (f : List String → YResponse Item)
    (hash : String → String) (now : Int) (video_ids : List String)
    (h : video_ids.length = 120) :
    pyChunks50 video_ids
        = [video_ids.take 50, (video_ids.drop 50).take 50, video_ids.drop 100]
    ∧ (pyChunks50 video_ids).map List.length = [50, 50, 20]
    ∧ (pyChunks50 video_ids).flatten = video_ids
    ∧ ∃ stf, get_video_details hash (fun b _ => .ok (f b)) now initState video_ids
        = .ok (⟨((pyChunks50 video_ids).map fun c => (f c).items).flatten, none⟩, stf,
               pyChunks50 video_ids) := by
  have hc := pyChunks50_of_length_120 video_ids h
  refine ⟨hc, ?_, ?_, ?_⟩
  · rw [hc]
    simp [List.length_take, List.length_drop, h]
  · rw [hc]
    have hdd : (video_ids.drop 50).drop 50 = video_ids.drop 100 := by
      rw [List.drop_drop]
    calc (([video_ids.take 50, (video_ids.drop 50).take 50, video_ids.drop 100]
            : List (List String))).flatten
        = video_ids.take 50 ++ ((video_ids.drop 50).take 50 ++ video_ids.drop 100) := by
          simp
      _ = video_ids.take 50 ++ ((video_ids.drop 50).take 50 ++ (video_ids.drop 50).drop 50) := by
          rw [hdd]
      _ = video_ids.take 50 ++ video_ids.drop 50 := by rw [List.take_append_drop]
      _ = video_ids := List.take_append_drop 50 video_ids
  · have h1 : video_ids ≠ [] := by intro hh; rw [hh] at h; simp at h
    obtain ⟨stf, hloop⟩ := fetchLoop_all_ok hash f now (pyChunks50 video_ids) initState
    refine ⟨set_cache now stf
      (get_cache_key hash "videos"
        [("ids", JVal.str (String.intercalate "," (pySorted video_ids)))])
      ⟨((pyChunks50 video_ids).map fun c => (f c).items).flatten, none⟩ none, ?_⟩
    rw [get_video_details]
    rw [if_neg h1]
    have hmiss : get_cached_data now (initState (V := YResponse Item))
        (get_cache_key hash "videos"
          [("ids", JVal.str (String.intercalate "," (pySorted video_ids)))]) = none := rfl
    simp only [hmiss, hloop]

/-- Witness for `batch_boundary` on the concrete ID list
`["0", "1", …, "119"]` with a provider returning empty item lists. -/
theorem batch_boundary_witness :
    pyChunks50 ((List.range 120).map toString)
        = [((List.range 120).map toString).take 50,
           (((List.range 120).map toString).drop 50).take 50,
           ((List.range 120).map toString).drop 100]
    ∧ (pyChunks50 ((List.range 120).map toString)).map List.length = [50, 50, 20]
    ∧ (pyChunks50 ((List.range 120).map toString)).flatten = (List.range 120).map toString
    ∧ ∃ stf, get_video_details id (fun b _ => .ok ((fun _ => (⟨[], none⟩ : YResponse Unit)) b))
          0 initState ((List.range 120).map toString)
        = .ok (⟨((pyChunks50 ((List.range 120).map toString)).map
                  fun c => (((fun _ => (⟨[], none⟩ : YResponse Unit))) c).items).flatten, none⟩,
               stf, pyChunks50 ((List.range 120).map toString)) :=
  batch_boundary (fun _ => (⟨[], none⟩ : YResponse Unit)) id 0
    ((List.range 120).map toString) (by simp)

/-- Sorting a params dict by key is canonical: any two insertion orders
of the same key-distinct entries sort to the same list. -/
theorem insertionSort_canon (p q : List (String × JVal)) (hperm : p.Perm q)
    (hnodup : (p.map Prod.fst).Nodup) :
    List.insertionSort paramLe p = List.insertionSort paramLe q := by
  have hsp := List.sorted_insertionSort paramLe p
  have hsq := List.sorted_insertionSort paramLe q
  have hp1 : (List.insertionSort paramLe p).Perm p := List.perm_insertionSort paramLe p
  have hq1 : (List.insertionSort paramLe q).Perm q := List.perm_insertionSort paramLe q
  have hpq : (List.insertionSort paramLe p).Perm (List.insertionSort paramLe q) :=
    hp1.trans (hperm.trans hq1.symm)
  have hnd_p : ((List.insertionSort paramLe p).map Prod.fst).Nodup :=
    ((hp1.map Prod.fst).nodup_iff).mpr hnodup
  have hnd_q : ((List.insertionSort paramLe q).map Prod.fst).Nodup :=
    ((hq1.map Prod.fst).nodup_iff).mpr (((hperm.map Prod.fst).nodup_iff).mp hnodup)
  have hne_p : List.Pairwise (fun a b : String × JVal => a.1 ≠ b.1)
      (List.insertionSort paramLe p) := (List.pairwise_map).mp hnd_p
  have hne_q : List.Pairwise (fun a b : String × JVal => a.1 ≠ b.1)
      (List.insertionSort paramLe q) := (List.pairwise_map).mp hnd_q
  have hlt_p : List.Pairwise (fun a b : String × JVal => a.1 < b.1)
      (List.insertionSort paramLe p) :=
    (hsp.and hne_p).imp fun h => lt_of_le_of_ne h.1 h.2
  have hlt_q : List.Pairwise (fun a b : String × JVal => a.1 < b.1)
      (List.insertionSort paramLe q) :=
    (hsq.and hne_q).imp fun h => lt_of_le_of_ne h.1 h.2
  haveI : IsAntisymm (String × JVal) (fun a b => a.1 < b.1) :=
    ⟨fun _ _ h1 h2 => absurd (lt_trans h1 h2) (lt_irrefl _)⟩
  exact List.eq_of_perm_of_sorted hpq hlt_p hlt_q

/-- Claim C7.  Cache-key determinism: `get_cache_key` is a pure function
(two calls on the same inputs agree), and permuting the insertion order
of the (key-distinct) params dict leaves the key unchanged, because the
serialization sorts keys before the digest is applied. -/
theorem cache_key_determinism (hash : String → String) (operation : String)
    (p q : List (String × JVal)) (hperm : p.Perm q)
    (hnodup : (p.map Prod.fst).Nodup) :
    get_cache_key hash operation p = get_cache_key hash operation p
    ∧ get_cache_key hash operation p = get_cache_key hash operation q := by
  refine ⟨rfl, ?_⟩
  unfold get_cache_key json_dumps_sorted
  rw [insertionSort_canon p q hperm hnodup]

/-- Witness for `cache_key_determinism` on a concrete two-entry params
dict given in the two possible insertion orders. -/
theorem cache_key_determinism_witness :
    get_cache_key id "videos" [("b", JVal.num 1), ("a", JVal.str "x")]
      = get_cache_key id "videos" [("b", JVal.num 1), ("a", JVal.str "x")]
    ∧ get_cache_key id "videos" [("b", JVal.num 1), ("a", JVal.str "x")]
      = get_cache_key id "videos" [("a", JVal.str "x"), ("b", JVal.num 1)] :=
  cache_key_determinism id "videos" _ _
    (List.Perm.swap ("a", JVal.str "x") ("b", JVal.num 1) []) (by decide)

/-- Every item kept by the dedup loop has a nonempty key that was not in
the seen set the loop started with. -/
theorem dedup_mem_key : ∀ (l : List SItem) (seen : List String) (r : SItem),
    r ∈ dedupResults seen l →
      dedupKey r ≠ "" ∧ seen.contains (dedupKey r) = false
  | [], _, _, h => by simp [dedupResults] at h
  | a :: rest, seen, r, h => by
    by_cases hc : (dedupKey a ≠ "" && !(seen.contains (dedupKey a))) = true
    · rw [show dedupResults seen (a :: rest)
          = a :: dedupResults (dedupKey a :: seen) rest by
            simp only [dedupResults]; rw [if_pos hc]] at h
      rcases List.mem_cons.mp h with rfl | hmem
      · simp only [Bool.and_eq_true, Bool.not_eq_true', ne_eq,
          decide_eq_true_eq] at hc
        exact ⟨by simpa using hc.1, hc.2⟩
      · have := dedup_mem_key rest (dedupKey a :: seen) r hmem
        refine ⟨this.1, ?_⟩
        have h2 := this.2
        simp only [List.contains_cons, Bool.or_eq_false_iff] at h2
        exact h2.2
    · rw [show dedupResults seen (a :: rest) = dedupResults seen rest by
            simp only [dedupResults]; rw [if_neg hc]] at h
      exact dedup_mem_key rest seen r h

/-- The dedup loop output has pairwise-distinct dedup keys. -/
theorem dedup_pairwise : ∀ (l : List SItem) (seen : List String),
    (dedupResults seen l).Pairwise (fun a b => dedupKey a ≠ dedupKey b)
  | [], _ => List.Pairwise.nil
  | a :: rest, seen => by
    by_cases hc : (dedupKey a ≠ "" && !(seen.contains (dedupKey a))) = true
    · rw [show dedupResults seen (a :: rest)
          = a :: dedupResults (dedupKey a :: seen) rest by
            simp only [dedupResults]; rw [if_pos hc]]
      refine List.Pairwise.cons ?_ (dedup_pairwise rest (dedupKey a :: seen))
      intro b hb
      have := (dedup_mem_key rest (dedupKey a :: seen) b hb).2
      simp only [List.contains_cons, Bool.or_eq_false_iff] at this
      have hne : (dedupKey b == dedupKey a) = false := this.1
      intro heq
      rw [heq] at hne
      simp at hne
    · rw [show dedupResults seen (a :: rest) = dedupResults seen rest by
            simp only [dedupResults]; rw [if_neg hc]]
      exact dedup_pairwise rest seen

/-- First-occurrence characterization of the dedup loop: an item is kept
iff its key is nonempty and unseen, and it sits at a position of the
input before which no item shares its key. -/
theorem mem_dedup_iff : ∀ (l : List SItem) (seen : List String) (r : SItem),
    r ∈ dedupResults seen l ↔
      (dedupKey r ≠ ""
        ∧ ∃ l₁ l₂, l = l₁ ++ r :: l₂
          ∧ dedupKey r ∉ seen
          ∧ ∀ x ∈ l₁, dedupKey x ≠ dedupKey r)
  | [], seen, r => by
    constructor
    · intro h
      simp [dedupResults] at h
    · rintro ⟨_, l₁, l₂, heq, _⟩
      exact absurd heq (by simp)
  | a :: rest, seen, r => by
    by_cases hc : (dedupKey a ≠ "" && !(seen.contains (dedupKey a))) = true
    · have hc' := hc
      simp only [Bool.and_eq_true, Bool.not_eq_true', ne_eq, decide_eq_true_eq] at hc'
      have hka : dedupKey a ∉ seen := by
        have := hc'.2
        simpa using this
      rw [show dedupResults seen (a :: rest) = a :: dedupResults (dedupKey a :: seen) rest by
            simp only [dedupResults]; rw [if_pos hc]]
      constructor
      · intro h
        rcases List.mem_cons.mp h with rfl | hmem
        · exact ⟨hc'.1, [], rest, rfl, hka, by simp⟩
        · obtain ⟨hkr, l₁, l₂, heq, hsc, hall⟩ :=
            (mem_dedup_iff rest (dedupKey a :: seen) r).mp hmem
          simp only [List.mem_cons, not_or] at hsc
          refine ⟨hkr, a :: l₁, l₂, by rw [heq]; rfl, hsc.2, ?_⟩
          intro x hx
          rcases List.mem_cons.mp hx with rfl | hx'
          · exact fun hEq => hsc.1 hEq.symm
          · exact hall x hx'
      · rintro ⟨hkr, l₁, l₂, heq, hsc, hall⟩
        cases l₁ with
        | nil =>
          have h2 : a = r ∧ rest = l₂ := by simpa using heq
          obtain ⟨rfl, rfl⟩ := h2
          exact List.mem_cons_self _ _
        | cons b l₁' =>
          have hab : a = b ∧ rest = l₁' ++ r :: l₂ := by simpa using heq
          obtain ⟨rfl, hrest⟩ := hab
          apply List.mem_cons.mpr
          right
          apply (mem_dedup_iff rest (dedupKey a :: seen) r).mpr
          have hne : dedupKey a ≠ dedupKey r := hall a (List.mem_cons_self _ _)
          refine ⟨hkr, l₁', l₂, hrest, ?_, fun x hx => hall x (List.mem_cons_of_mem _ hx)⟩
          simp only [List.mem_cons, not_or]
          exact ⟨fun hEq => hne hEq.symm, hsc⟩
    · have hc' : dedupKey a = "" ∨ dedupKey a ∈ seen := by
        by_cases hk : dedupKey a = ""
        · exact Or.inl hk
        · right
          simp only [Bool.and_eq_true, Bool.not_eq_true', ne_eq, decide_eq_true_eq,
            not_and] at hc
          have := hc hk
          simpa using this
      rw [show dedupResults seen (a :: rest) = dedupResults seen rest by
            simp only [dedupResults]; rw [if_neg hc]]
      rw [mem_dedup_iff rest seen r]
      constructor
      · rintro ⟨hkr, l₁, l₂, heq, hsc, hall⟩
        refine ⟨hkr, a :: l₁, l₂, by rw [heq]; rfl, hsc, ?_⟩
        intro x hx
        rcases List.mem_cons.mp hx with rfl | hx'
        · rcases hc' with h0 | h1
          · rw [h0]
            exact fun hEq => hkr hEq.symm
          · intro hEq
            rw [hEq] at h1
            exact hsc h1
        · exact hall x hx'
      · rintro ⟨hkr, l₁, l₂, heq, hsc, hall⟩
        cases l₁ with
        | nil =>
          have h2 : a = r ∧ rest = l₂ := by simpa using heq
          obtain ⟨rfl, rfl⟩ := h2
          rcases hc' with h0 | h1
          · exact absurd h0 hkr
          · exact absurd h1 hsc
        | cons b l₁' =>
          have hab : a = b ∧ rest = l₁' ++ r :: l₂ := by simpa using heq
          obtain ⟨rfl, hrest⟩ := hab
          exact ⟨hkr, l₁', l₂, hrest, hsc, fun x hx => hall x (List.mem_cons_of_mem _ hx)⟩

/-- C1 counterexample.  Two adapter results with distinct urls but the
same title are both returned: the page contains two entries with the
same (case-insensitive) title, violating the claimed invariant. -/
theorem dedup_invariant_counterexample :
    ((search_content_library
        [Except.ok [{ url := "u1", title := "T" }],
         Except.ok [{ url := "u2", title := "T" }]] "all" 1 50).results.map SItem.title)
      = ["T", "T"]
    ∧ ((search_content_library
        [Except.ok [{ url := "u1", title := "T" }],
         Except.ok [{ url := "u2", title := "T" }]] "all" 1 50).results.map SItem.url)
      = ["u1", "u2"] := ⟨rfl, rfl⟩

/-- C1 amended.  Dedup invariant: the returned items have pairwise
distinct dedup keys — key = `url` when nonempty, else `title`, compared
exactly (case-sensitively, not case-insensitively, and with no URL/title
normalization) — so no two returned items share a nonempty `url`, and no
two url-less items share a `title`; an item survives dedup iff its key
is nonempty and it is the first occurrence of that key in
adapter-dispatch order. -/
theorem dedup_invariant_amended (tasks : List (Except String (List SItem)))
    (category : String) (page per_page : Nat) :
    ((search_content_library tasks category page per_page).results).Pairwise
      (fun a b => dedupKey a ≠ dedupKey b)
    ∧ ∀ r : SItem,
        (r ∈ dedupResults [] (categoryFiltered category (gatherResults tasks)) ↔
          (dedupKey r ≠ ""
            ∧ ∃ l₁ l₂, categoryFiltered category (gatherResults tasks) = l₁ ++ r :: l₂
              ∧ ∀ x ∈ l₁, dedupKey x ≠ dedupKey r)) := by
  constructor
  · have hu := dedup_pairwise (categoryFiltered category (gatherResults tasks)) []
    have hperm := List.perm_insertionSort rankLe
      (dedupResults [] (categoryFiltered category (gatherResults tasks)))
    have hs : (rankedResults tasks category).Pairwise
        (fun a b => dedupKey a ≠ dedupKey b) := by
      unfold rankedResults
      exact (List.Perm.pairwise_iff (fun h => h.symm) hperm).mpr hu
    have hsub : ((search_content_library tasks category page per_page).results).Sublist
        (rankedResults tasks category) := by
      show ((((rankedResults tasks category)).drop ((page - 1) * per_page)).take
          per_page).Sublist _
      exact (List.take_sublist _ _).trans (List.drop_sublist _ _)
    exact List.Pairwise.sublist hsub hs
  · intro r
    rw [mem_dedup_iff]
    constructor
    · rintro ⟨hkr, l₁, l₂, heq, _, hall⟩
      exact ⟨hkr, l₁, l₂, heq, hall⟩
    · rintro ⟨hkr, l₁, l₂, heq, hall⟩
      exact ⟨hkr, l₁, l₂, heq, by simp, hall⟩

/-- Witness for `dedup_invariant_amended`: the pairwise-distinct-keys
conclusion at a concrete adapter outcome list. -/
theorem dedup_invariant_amended_witness :
    ((search_content_library [Except.ok [{ url := "u1", title := "T" : SItem }]]
        "all" 1 50).results).Pairwise (fun a b => dedupKey a ≠ dedupKey b) :=
  (dedup_invariant_amended [Except.ok [{ url := "u1", title := "T" }]] "all" 1 50).1

/-- Dropping the failed task outcomes leaves the gathered result list
unchanged: failures contribute nothing. -/
theorem gather_ok_filter : ∀ tasks : List (Except String (List SItem)),
    gatherResults (tasks.filter isListResult) = gatherResults tasks
  | [] => rfl
  | .ok l :: rest => by
    show l ++ gatherResults (List.filter isListResult rest) = l ++ gatherResults rest
    rw [gather_ok_filter rest]
  | .error e :: rest => by
    show gatherResults (List.filter isListResult rest) = gatherResults rest
    exact gather_ok_filter rest

/-- When every task fails, nothing is gathered. -/
theorem gather_all_fail : ∀ tasks : List (Except String (List SItem)),
    (∀ t ∈ tasks, isListResult t = false) → gatherResults tasks = []
  | [], _ => rfl
  | .ok l :: rest, h => by
    have := h (.ok l) (List.mem_cons_self _ _)
    simp [isListResult] at this
  | .error e :: rest, h => by
    simp only [gatherResults]
    exact gather_all_fail rest fun t ht => h t (List.mem_cons_of_mem _ ht)

/-- C2 counterexample.  With every adapter failing, the endpoint returns
zero items but a nonempty hard-coded `sources` list — not the empty
sources list the claim requires, and not the set of successful
adapters. -/
theorem partial_failure_counterexample :
    (search_content_library [Except.error "e1", Except.error "e2", Except.error "e3"]
        "video" 1 50).results = []
    ∧ (search_content_library [Except.error "e1", Except.error "e2", Except.error "e3"]
        "video" 1 50).total = 0
    ∧ (search_content_library [Except.error "e1", Except.error "e2", Except.error "e3"]
        "video" 1 50).sources
      = ["YouTube Creative Commons (CC BY)", "Internet Archive (Public Domain)",
         "TED Talks (CC BY-NC-ND)"]
    ∧ (search_content_library [Except.error "e1", Except.error "e2", Except.error "e3"]
        "video" 1 50).sources ≠ [] :=
  ⟨rfl, rfl, rfl, by decide⟩

/-- C2 amended.  Partial-failure tolerance: the aggregation result is a
function of the successful task outcomes only (failed adapters
contribute nothing and raise nothing), and when every adapter fails the
endpoint returns a well-formed page with zero items; but the `sources`
list is always the fixed per-category list `get_active_sources_v2`,
never the set of adapters that actually succeeded. -/
theorem partial_failure_tolerance (tasks : List (Except String (List SItem)))
    (category : String) (page per_page : Nat) :
    search_content_library tasks category page per_page
        = search_content_library (tasks.filter isListResult) category page per_page
    ∧ (search_content_library tasks category page per_page).sources
        = get_active_sources_v2 category
    ∧ ((∀ t ∈ tasks, isListResult t = false) →
        (search_content_library tasks category page per_page).results = []
        ∧ (search_content_library tasks category page per_page).total = 0) := by
  refine ⟨?_, rfl, ?_⟩
  · simp only [search_content_library, rankedResults, gather_ok_filter]
  · intro hall
    have hg : gatherResults tasks = [] := gather_all_fail tasks hall
    have hcf : categoryFiltered category (gatherResults tasks) = [] := by
      rw [hg]
      unfold categoryFiltered
      split <;> rfl
    have hrank : rankedResults tasks category = [] := by
      unfold rankedResults
      rw [hcf]
      rfl
    constructor
    · show ((rankedResults tasks category).drop ((page - 1) * per_page)).take per_page = []
      rw [hrank]
      simp
    · show (rankedResults tasks category).length = 0
      rw [hrank]
      rfl

/-- Witness for `partial_failure_tolerance`: the all-fail arm at a
concrete failing task list. -/
theorem partial_failure_tolerance_witness :
    (search_content_library [Except.error "boom"] "book" 2 7).results = []
    ∧ (search_content_library [Except.error "boom"] "book" 2 7).total = 0 :=
  (partial_failure_tolerance [Except.error "boom"] "book" 2 7).2.2 (by
    intro t ht
    simp only [List.mem_singleton] at ht
    subst ht
    rfl)

/-- The code's `max(1, (total + per_page - 1) // per_page)` is the
ceiling of `total / per_page` whenever `total ≥ 1`: characterized by the
two standard ceiling bounds. -/
theorem ceil_division_bounds (t p : Nat) (hp : 1 ≤ p) (ht : 1 ≤ t) :
    t ≤ (max 1 ((t + p - 1) / p)) * p ∧ ((max 1 ((t + p - 1) / p)) - 1) * p < t := by
  obtain ⟨q, hq⟩ : ∃ q, (t + p - 1) / p = q := ⟨_, rfl⟩
  obtain ⟨m, hm⟩ : ∃ m, (t + p - 1) % p = m := ⟨_, rfl⟩
  have hdm := Nat.div_add_mod (t + p - 1) p
  rw [hq, hm] at hdm
  have hmp : m < p := by rw [← hm]; exact Nat.mod_lt _ (by omega)
  rw [hq]
  rcases Nat.eq_zero_or_pos q with h0 | hq1
  · subst h0
    simp only [Nat.mul_zero, Nat.zero_add] at hdm
    simp only [Nat.max_eq_left (by omega : (0 : Nat) ≤ 1)]
    simp
    omega
  · have hmax : max 1 q = q := Nat.max_eq_right hq1
    rw [hmax]
    obtain ⟨qq, rfl⟩ : ∃ qq, q = qq + 1 := ⟨q - 1, by omega⟩
    obtain ⟨E, hE⟩ : ∃ E, p * qq = E := ⟨_, rfl⟩
    have hx : p * (qq + 1) = E + p := by rw [← hE]; ring
    rw [hx] at hdm
    constructor
    · have hy : (qq + 1) * p = E + p := by rw [← hE]; ring
      rw [hy]
      omega
    · have hz : ((qq + 1) - 1) * p = E := by
        rw [← hE]
        simp [Nat.mul_comm]
      rw [hz]
      omega

/-- C3 counterexample.  With no results, the endpoint reports
`total_pages = 1`, while `ceil(total / per_page) = ceil(0/50) = 0`: the
claimed identity `totalPages == ceil(total/perPage)` fails at
`total = 0`. -/
theorem pagination_counterexample :
    (search_content_library [] "all" 1 50).total = 0
    ∧ (search_content_library [] "all" 1 50).per_page = 50
    ∧ (search_content_library [] "all" 1 50).total_pages = 1
    ∧ (search_content_library [] "all" 1 50).total_pages
        ≠ ((search_content_library [] "all" 1 50).total
            + (search_content_library [] "all" 1 50).per_page - 1)
          / (search_content_library [] "all" 1 50).per_page :=
  ⟨rfl, rfl, rfl, by decide⟩

/-- C3 amended.  Pagination arithmetic for `per_page ≥ 1`: the returned
items are the slice `[(page-1)*per_page, (page-1)*per_page + per_page)`
of the ranked list (hence at most `per_page` items);
`total_pages = max(1, ceil(total/per_page))` — equal to the claimed
ceiling for `total ≥ 1` (characterized by the two ceiling bounds) but
equal to 1, not 0, when `total = 0`; `has_next = page < total_pages`;
`has_prev = page > 1`. -/
theorem pagination_arithmetic (tasks : List (Except String (List SItem)))
    (category : String) (page per_page : Nat) (hpp : 1 ≤ per_page) :
    (search_content_library tasks category page per_page).results
        = ((rankedResults tasks category).drop ((page - 1) * per_page)).take per_page
    ∧ (search_content_library tasks category page per_page).results.length ≤ per_page
    ∧ ((search_content_library tasks category page per_page).total = 0 →
        (search_content_library tasks category page per_page).total_pages = 1)
    ∧ (1 ≤ (search_content_library tasks category page per_page).total →
        (search_content_library tasks category page per_page).total
            ≤ (search_content_library tasks category page per_page).total_pages * per_page
        ∧ ((search_content_library tasks category page per_page).total_pages - 1) * per_page
            < (search_content_library tasks category page per_page).total)
    ∧ (search_content_library tasks category page per_page).has_next
        = decide (page < (search_content_library tasks category page per_page).total_pages)
    ∧ (search_content_library tasks category page per_page).has_prev = decide (1 < page) := by
  refine ⟨rfl, ?_, ?_, ?_, rfl, rfl⟩
  · show (((rankedResults tasks category).drop ((page - 1) * per_page)).take per_page).length
        ≤ per_page
    rw [List.length_take]
    exact Nat.min_le_left _ _
  · intro h0
    show max 1 (((rankedResults tasks category).length + per_page - 1) / per_page) = 1
    have hlen : (rankedResults tasks category).length = 0 := h0
    rw [hlen]
    have : (0 + per_page - 1) / per_page = 0 := Nat.div_eq_of_lt (by omega)
    rw [this]
    simp
  · intro h1
    exact ceil_division_bounds (rankedResults tasks category).length per_page hpp h1

/-- Witness for `pagination_arithmetic` at the spec's example:
62 adapter results with `per_page = 50`, page 1. -/
theorem pagination_arithmetic_witness :
    (search_content_library
        [Except.ok ((List.range 62).map fun n => { url := toString n : SItem })]
        "all" 1 50).results.length ≤ 50 :=
  (pagination_arithmetic
      [Except.ok ((List.range 62).map fun n => { url := toString n : SItem })]
      "all" 1 50 (by decide)).2.1

end Ringo
